import Mathlib

/-!
Formal model of the DIUN update-detection engine.

Shallow embedding of the registry-client version pipeline
(internal/registry: parseSemanticVersion, compareVersions,
filterSemanticVersionTags, filterUnwantedVersions, findHighestSemanticVersion,
findLatestTag, CheckImageUpdate, CheckMultipleImages, NewClient's rate-limiter
configuration), of the docker package's ParseImageReference, and of the
scheduler's per-task isRunning guard.

Go strings are modelled as Lean `String`/`List Char`; Go's bytewise string
comparison on UTF-8 data coincides with code-point lexicographic order, which
`goStringLess` implements.  Go `int` arithmetic appears only on values produced
by `strconv.Atoi` on digit strings, modelled as `Nat` with Atoi's 64-bit
overflow check.  Network and logging side effects are outside the model: the
pure cores take the fetched tag list (resp. the per-image outcomes) as input.
-/

/-- Lexicographic order on character lists, mirroring Go's `<` on strings
(bytewise over UTF-8, which agrees with code-point order). -/
def goStringLess : List Char → List Char → Bool
  | [], [] => false
  | [], _ :: _ => true
  | _ :: _, [] => false
  | x :: xs, y :: ys => if x < y then true else if y < x then false else goStringLess xs ys

/-- Whether `sub` occurs at the head of `l`. -/
def leadsWith : List Char → List Char → Bool
  | [], _ => true
  | _ :: _, [] => false
  | a :: as, b :: bs => a = b && leadsWith as bs

/-- Whether `sub` occurs contiguously anywhere in `l`, mirroring Go
`strings.Contains`. -/
def occursIn (sub : List Char) : List Char → Bool
  | [] => sub.isEmpty
  | c :: rest => leadsWith sub (c :: rest) || occursIn sub rest

/-- Go `strconv.Atoi` on an all-digit string: value of the digits, failing on
empty input or 64-bit overflow. -/
def goAtoi (ds : List Char) : Option Nat :=
  if ds.isEmpty then none
  else
    let n := ds.foldl (fun acc c => acc * 10 + (c.toNat - 48)) 0
    if n ≤ 9223372036854775807 then some n else none

/-- Go `strings.TrimPrefix(version, "v")`, as a character list. -/
def trimV (s : String) : List Char :=
  match s.data with
  | 'v' :: r => r
  | r => r

/-- Character class `[a-zA-Z0-9\-.]` used by the semver regexes. -/
def isSemverIdentChar (c : Char) : Bool :=
  c.isAlpha || c.isDigit || c = '-' || c = '.'

/-- Anchored match of `(\d+)\.(\d+)\.(\d+)(?:-(IDENT+))?(?:\+(IDENT+))?`
returning the five capture groups (digits of major/minor/patch, pre-release,
build).  The regex's greedy runs have a unique viable extent here, so the
match is computed by maximal spans. -/
def parseSemVerChars (cs : List Char) :
    Option (List Char × List Char × List Char × List Char × List Char) :=
  let (d1, r1) := cs.span Char.isDigit
  if d1.isEmpty then none else
  match r1 with
  | '.' :: r1' =>
    let (d2, r2) := r1'.span Char.isDigit
    if d2.isEmpty then none else
    match r2 with
    | '.' :: r2' =>
      let (d3, r3) := r2'.span Char.isDigit
      if d3.isEmpty then none else
      match r3 with
      | [] => some (d1, d2, d3, [], [])
      | '-' :: r4 =>
        let (pre, r5) := r4.span isSemverIdentChar
        if pre.isEmpty then none else
        match r5 with
        | [] => some (d1, d2, d3, pre, [])
        | '+' :: r6 =>
          let (b, r7) := r6.span isSemverIdentChar
          if b.isEmpty then none
          else if r7.isEmpty then some (d1, d2, d3, pre, b) else none
        | _ => none
      | '+' :: r4 =>
        let (b, r5) := r4.span isSemverIdentChar
        if b.isEmpty then none
        else if r5.isEmpty then some (d1, d2, d3, [], b) else none
      | _ => none
    | _ => none
  | _ => none

/-- SemanticVersion struct of the registry package. -/
structure SemanticVersion where
  Major : Nat
  Minor : Nat
  Patch : Nat
  PreRelease : String
  Build : String
deriving DecidableEq

/-- parseSemanticVersion: trim a leading `v`, match the semver regex, convert
the numeric groups with Atoi. -/
def parseSemanticVersion (version : String) : Option SemanticVersion :=
  match parseSemVerChars (trimV version) with
  | none => none
  | some (d1, d2, d3, pre, b) =>
    match goAtoi d1, goAtoi d2, goAtoi d3 with
    | some major, some minor, some patch =>
        some { Major := major, Minor := minor, Patch := patch,
               PreRelease := String.mk pre, Build := String.mk b }
    | _, _, _ => none

/-- VersionComparison enum of the registry package. -/
inductive VersionComparison where
  | VersionEqual
  | VersionOlder
  | VersionNewer
  | VersionIncomparable
deriving DecidableEq

open VersionComparison

/-- compareVersions: equal strings are Equal, `"latest"` is Incomparable,
parsed semantic versions are compared field by field, otherwise fall back to
plain string order. -/
def compareVersions (version1 version2 : String) : VersionComparison :=
  if version1 = version2 then VersionEqual
  else if version1 = "latest" ∨ version2 = "latest" then VersionIncomparable
  else
    match parseSemanticVersion version1, parseSemanticVersion version2 with
    | some v1, some v2 =>
      if v1.Major < v2.Major then VersionOlder
      else if v2.Major < v1.Major then VersionNewer
      else if v1.Minor < v2.Minor then VersionOlder
      else if v2.Minor < v1.Minor then VersionNewer
      else if v1.Patch < v2.Patch then VersionOlder
      else if v2.Patch < v1.Patch then VersionNewer
      else if v1.PreRelease = "" ∧ v2.PreRelease ≠ "" then VersionNewer
      else if v1.PreRelease ≠ "" ∧ v2.PreRelease = "" then VersionOlder
      else if v1.PreRelease ≠ "" ∧ v2.PreRelease ≠ "" then
        if goStringLess v1.PreRelease.data v2.PreRelease.data then VersionOlder
        else if goStringLess v2.PreRelease.data v1.PreRelease.data then VersionNewer
        else VersionEqual
      else VersionEqual
    | _, _ =>
      if goStringLess version1.data version2.data then VersionOlder
      else if goStringLess version2.data version1.data then VersionNewer
      else VersionEqual

/-- Spec-side comparator on parsed semantic versions: major, then minor, then
patch numerically; a release outranks a pre-release; two pre-releases compare
lexicographically; build metadata is ignored. -/
def semverOrder (v1 v2 : SemanticVersion) : VersionComparison :=
  if v1.Major < v2.Major then VersionOlder
  else if v2.Major < v1.Major then VersionNewer
  else if v1.Minor < v2.Minor then VersionOlder
  else if v2.Minor < v1.Minor then VersionNewer
  else if v1.Patch < v2.Patch then VersionOlder
  else if v2.Patch < v1.Patch then VersionNewer
  else if v1.PreRelease = "" ∧ v2.PreRelease ≠ "" then VersionNewer
  else if v1.PreRelease ≠ "" ∧ v2.PreRelease = "" then VersionOlder
  else if v1.PreRelease ≠ "" ∧ v2.PreRelease ≠ "" then
    if goStringLess v1.PreRelease.data v2.PreRelease.data then VersionOlder
    else if goStringLess v2.PreRelease.data v1.PreRelease.data then VersionNewer
    else VersionEqual
  else VersionEqual

/-- VersionFilterConfig of the registry package. -/
structure VersionFilterConfig where
  ExcludePreRelease : Bool
  ExcludeWindows : Bool
  ExcludePatterns : List String
  OnlyStable : Bool
deriving DecidableEq

/-- Version filters installed by NewClient. -/
def defaultVersionFilters : VersionFilterConfig :=
  { ExcludePreRelease := true, ExcludeWindows := true,
    ExcludePatterns := [], OnlyStable := true }

/-- filterSemanticVersionTags: keep the tags matching the semver regex
(with optional leading `v`). -/
def filterSemanticVersionTags (tags : List String) : List String :=
  tags.filter fun tag => (parseSemVerChars (trimV tag)).isSome

/-- isStableSemanticVersion: after stripping a leading `v`, the tag must match
`(\d+)\.(\d+)\.(\d+)(?:\+(IDENT+))?` — the semver grammar with no pre-release
group at all. -/
def isStableSemanticVersion (tag : String) : Bool :=
  match parseSemVerChars (trimV tag) with
  | some (_, _, _, pre, _) => pre.isEmpty
  | none => false

/-- Exclusion substrings assembled by filterUnwantedVersions from the
configuration. -/
def excludePatternsFor (cfg : VersionFilterConfig) : List String :=
  (if cfg.ExcludePreRelease then
      ["rc", "alpha", "beta", "dev", "snapshot", "nightly", "pre"] else []) ++
  (if cfg.ExcludeWindows then
      ["windows", "windowsservercore", "nanoserver", "ltsc", "insider"] else []) ++
  cfg.ExcludePatterns

/-- The per-tag exclusion test of filterUnwantedVersions: a configured pattern
occurs in the lower-cased tag, or OnlyStable is set and the tag is not a
stable semantic version. -/
def shouldExcludeTag (cfg : VersionFilterConfig) (tag : String) : Bool :=
  let tagLower := tag.data.map Char.toLower
  (excludePatternsFor cfg).any
    (fun pattern => occursIn (pattern.data.map Char.toLower) tagLower) ||
  (cfg.OnlyStable && !isStableSemanticVersion tag)

/-- filterUnwantedVersions: drop the tags that shouldExcludeTag rejects. -/
def filterUnwantedVersions (cfg : VersionFilterConfig) (tags : List String) :
    List String :=
  tags.filter fun tag => !shouldExcludeTag cfg tag

/-- findHighestSemanticVersion: start from the first tag and replace the
running best whenever compareVersions says it is VersionOlder than the
candidate. -/
def findHighestSemanticVersion (tags : List String) : String :=
  match tags with
  | [] => ""
  | t :: rest =>
    rest.foldl
      (fun highest tag =>
        if compareVersions highest tag = VersionOlder then tag else highest) t

/-- findLatestTag: error (`none`) on an empty list; for current tag `"latest"`
scan the unfiltered list; otherwise filter to wanted semantic versions, and if
nothing survives prefer a literal `"latest"` tag, else the first original tag. -/
def findLatestTag (cfg : VersionFilterConfig) (tags : List String)
    (currentTag : String) : Option String :=
  match tags with
  | [] => none
  | t0 :: _ =>
    if currentTag = "latest" then some (findHighestSemanticVersion tags)
    else
      let semverTags := filterSemanticVersionTags tags
      let filteredTags := filterUnwantedVersions cfg semverTags
      if filteredTags.isEmpty then
        if tags.contains "latest" then some "latest" else some t0
      else some (findHighestSemanticVersion filteredTags)

/-- ImageUpdateInfo of the registry package (the never-assigned LastUpdated
timestamp is omitted). -/
structure ImageUpdateInfo where
  CurrentTag : String
  LatestTag : String
  AvailableTags : List String
  HasUpdate : Bool
  Registry : String
  Repository : String
deriving DecidableEq

/-- Pure core of CheckImageUpdate, taking the tag list the registry returned:
an empty list yields a no-update verdict; a findLatestTag error is logged and
yields the same; otherwise HasUpdate records whether the current tag is
strictly VersionOlder than the resolved latest tag. -/
def CheckImageUpdate (cfg : VersionFilterConfig)
    (registry repository currentTag : String) (tags : List String) :
    ImageUpdateInfo :=
  let base : ImageUpdateInfo :=
    { CurrentTag := currentTag, LatestTag := "", AvailableTags := tags,
      HasUpdate := false, Registry := registry, Repository := repository }
  if tags.isEmpty then base
  else
    match findLatestTag cfg tags currentTag with
    | none => base
    | some latestTag =>
      { base with
        LatestTag := latestTag,
        HasUpdate := decide (compareVersions currentTag latestTag = VersionOlder) }

/-- Whether a per-image outcome succeeded. -/
def isOkB (r : Except String ImageUpdateInfo) : Bool :=
  match r with
  | .ok _ => true
  | .error _ => false

/-- The verdict of a successful per-image outcome. -/
def exceptToOption (r : Except String ImageUpdateInfo) : Option ImageUpdateInfo :=
  match r with
  | .ok u => some u
  | .error _ => none

/-- Aggregation core of CheckMultipleImages over the per-image outcomes in
channel-arrival order: an empty batch returns no verdicts; otherwise the
failures are counted and discarded, and the call errors only when there was at
least one failure and no success. -/
def CheckMultipleImages (results : List (Except String ImageUpdateInfo)) :
    Except String (List ImageUpdateInfo) :=
  if results.isEmpty then .ok []
  else
    let updateInfos := results.filterMap exceptToOption
    let errCount := (results.filter fun r => !isOkB r).length
    if 0 < errCount ∧ updateInfos.length = 0 then
      .error ("all image checks failed: " ++ toString errCount ++ " errors")
    else .ok updateInfos

/-- Rate argument passed to rate.NewLimiter by NewClient and
NewClientWithFilters: `rate.Limit(requestsPerMinute/60)` with Go integer
division, in events per second. -/
def limiterRatePerSecond (requestsPerMinute : Nat) : Nat :=
  requestsPerMinute / 60

/-- Sustained admission rate of that limiter over one minute. -/
def limiterSustainedPerMinute (requestsPerMinute : Nat) : Nat :=
  60 * limiterRatePerSecond requestsPerMinute

/-- ImageReference of the docker package. -/
structure ImageReference where
  Registry : String
  Namespace : String
  Repository : String
  Tag : String
  Digest : String
  FullName : String
deriving DecidableEq

/-- Split a character list at the first occurrence of `c`, dropping it;
`none` when `c` does not occur. -/
def splitFirst (c : Char) : List Char → Option (List Char × List Char)
  | [] => none
  | x :: xs =>
    if x = c then some ([], xs)
    else (splitFirst c xs).map fun p => (x :: p.1, p.2)

/-- Characters allowed in the repository group `[^:@/]+`. -/
def repoChar (c : Char) : Bool :=
  c ≠ ':' && c ≠ '@' && c ≠ '/'

/-- Anchored match of the trailing `([^:@/]+)(?::([^@]+))?(?:@(.+))?` of the
image-reference regex, returning (repository, tag, digest).  Each greedy group
has a unique viable extent, so the match is computed directly. -/
def matchCore (s : List Char) : Option (List Char × List Char × List Char) :=
  let (repo, rest) := s.span repoChar
  if repo.isEmpty then none else
  match rest with
  | [] => some (repo, [], [])
  | ':' :: t =>
    match splitFirst '@' t with
    | none => if t.isEmpty then none else some (repo, t, [])
    | some (d, e) =>
      if d.isEmpty then none
      else if e.isEmpty then none
      else some (repo, d, e)
  | '@' :: e => if e.isEmpty then none else some (repo, [], e)
  | _ => none

/-- Leftmost-first match of the whole image-reference regex
`(?:([^/]+(?:\.[^/]+)*(?::[0-9]+)?)/)?(?:([^/]+)/)?CORE`, returning the five
capture groups (registry, namespace, repository, tag, digest).  The first
group's dot/port decorations are vacuous (the quantifiers allow zero
occurrences), so both leading groups accept exactly one slash-free segment;
Go's backtracking tries registry+namespace, then registry alone, then neither
(a lone leading segment that the registry group rejects would be rejected by
the namespace group as well). -/
def matchImageRef (s : List Char) :
    Option (List Char × List Char × List Char × List Char × List Char) :=
  match splitFirst '/' s with
  | none =>
    match matchCore s with
    | some (r, t, d) => some ([], [], r, t, d)
    | none => none
  | some (s1, r1) =>
    if s1.isEmpty then
      match matchCore s with
      | some (r, t, d) => some ([], [], r, t, d)
      | none => none
    else
      match splitFirst '/' r1 with
      | some (s2, r2) =>
        if s2.isEmpty then
          match matchCore r1 with
          | some (r, t, d) => some (s1, [], r, t, d)
          | none =>
            match matchCore s with
            | some (r, t, d) => some ([], [], r, t, d)
            | none => none
        else
          match matchCore r2 with
          | some (r, t, d) => some (s1, s2, r, t, d)
          | none =>
            match matchCore r1 with
            | some (r, t, d) => some (s1, [], r, t, d)
            | none =>
              match matchCore s with
              | some (r, t, d) => some ([], [], r, t, d)
              | none => none
      | none =>
        match matchCore r1 with
        | some (r, t, d) => some (s1, [], r, t, d)
        | none =>
          match matchCore s with
          | some (r, t, d) => some ([], [], r, t, d)
          | none => none

/-- ParseImageReference: reject empty input, run the regex, then default the
registry to `docker.io`, default the tag to `latest` when both tag and digest
are absent, join namespace and repository, and rewrite a bare Docker Hub
repository into the `library/` namespace.  FullName is the raw input. -/
def ParseImageReference (image : String) : Option ImageReference :=
  if image = "" then none
  else
    match matchImageRef image.data with
    | none => none
    | some (reg, ns, repo, tag, dig) =>
      let registry := if reg.isEmpty then "docker.io" else String.mk reg
      let tag' := if tag.isEmpty && dig.isEmpty then "latest" else String.mk tag
      let nsStr := String.mk ns
      let repoStr := String.mk repo
      let fullRepo := if ns.isEmpty then repoStr else nsStr ++ "/" ++ repoStr
      let fullRepo' :=
        if registry == "docker.io" && ns.isEmpty && !(repo.contains '/') then
          "library/" ++ repoStr
        else fullRepo
      some { Registry := registry, Namespace := nsStr, Repository := fullRepo',
             Tag := tag', Digest := String.mk dig, FullName := image }

/-- Per-task execution state of the scheduler: the IsRunning flag guarded by
the task's mutex, and a ghost count of handler executions currently in
progress. -/
structure TaskExecState where
  isRunning : Bool
  active : Nat
deriving DecidableEq

/-- Events on one task.  `scheduledFire` is the check-and-set prologue of
wrapTaskHandler, `runTask` the identical prologue of RunTask (its failure is
the AlreadyRunningError), `handlerDone` the deferred clear of IsRunning; each
runs under the task's lock, hence as one atomic step. -/
inductive TaskEvent where
  | scheduledFire
  | runTask
  | handlerDone
deriving DecidableEq

/-- Transition of the task state under one event: a firing that finds
IsRunning set is skipped (scheduled) or rejected (on-demand) with no state
change; otherwise it sets the flag and begins an execution; completion clears
the flag and ends the execution. -/
def taskStep (s : TaskExecState) (e : TaskEvent) : TaskExecState :=
  match e with
  | .scheduledFire => if s.isRunning then s else { isRunning := true, active := s.active + 1 }
  | .runTask => if s.isRunning then s else { isRunning := true, active := s.active + 1 }
  | .handlerDone => if s.isRunning then { isRunning := false, active := s.active - 1 } else s

/-- State of a freshly registered task. -/
def initTaskState : TaskExecState := { isRunning := false, active := 0 }

/-- Task state after an arbitrary interleaving of events. -/
def runTrace (es : List TaskEvent) : TaskExecState :=
  es.foldl taskStep initTaskState

/-- Invariant tying the ghost execution count to the IsRunning flag. -/
def taskInv (s : TaskExecState) : Prop :=
  s.active = if s.isRunning then 1 else 0

theorem sanity_parse_plain : parseSemanticVersion "1.21.0" = some ⟨1, 21, 0, "", ""⟩ := by decide
theorem sanity_parse_full : parseSemanticVersion "v1.2.3-rc1+build.5" = some ⟨1, 2, 3, "rc1", "build.5"⟩ := by
  decide
theorem sanity_parse_latest_none : parseSemanticVersion "latest" = none := by decide
theorem sanity_compare_patch : compareVersions "1.21.0" "1.21.1" = VersionOlder := by decide
theorem sanity_compare_latest : compareVersions "latest" "2.0.0" = VersionIncomparable := by decide
theorem sanity_findLatestTag_latest :
    findLatestTag defaultVersionFilters ["latest", "2.0.0", "1.0.0-beta"] "latest" =
      some "latest" := by decide
theorem sanity_scenarioA_latest :
    (CheckImageUpdate defaultVersionFilters "docker.io" "library/nginx" "1.21.0"
      ["1.21.0", "1.21.1", "1.22.0-rc1"]).LatestTag = "1.21.1" := by decide
theorem sanity_scenarioA_hasUpdate :
    (CheckImageUpdate defaultVersionFilters "docker.io" "library/nginx" "1.21.0"
      ["1.21.0", "1.21.1", "1.22.0-rc1"]).HasUpdate = true := by decide
theorem sanity_parse_ref_bare :
    ParseImageReference "nginx" =
      some ⟨"docker.io", "", "library/nginx", "latest", "", "nginx"⟩ := by decide
theorem sanity_parse_ref_org :
    ParseImageReference "myorg/nginx" =
      some ⟨"myorg", "", "nginx", "latest", "", "myorg/nginx"⟩ := by decide
theorem sanity_parse_ref_registry :
    ParseImageReference "registry.example.com:5000/team/app:1.0" =
      some ⟨"registry.example.com:5000", "team", "team/app", "1.0", "",
        "registry.example.com:5000/team/app:1.0"⟩ := by decide
theorem sanity_parse_ref_empty : ParseImageReference "" = none := by decide
theorem sanity_parse_ref_doubleslash : ParseImageReference "a//b" = none := by decide
theorem sanity_parse_ref_digest :
    ParseImageReference "nginx@sha256:abc" =
      some ⟨"docker.io", "", "library/nginx", "", "sha256:abc", "nginx@sha256:abc"⟩ := by
  decide

/-! Helper lemmas -/

theorem goStringLess_self (l : List Char) : goStringLess l l = false := by
  induction l with
  | nil => rfl
  | cons x xs ih => simp [goStringLess, ih]

theorem goStringLess_nil_right (l : List Char) : goStringLess l [] = false := by
  cases l <;> rfl

theorem semverOrder_self (v : SemanticVersion) : semverOrder v v = VersionEqual := by
  simp [semverOrder, goStringLess_self]

theorem parseSemanticVersion_latest : parseSemanticVersion "latest" = none := by decide

theorem parseSemanticVersion_empty : parseSemanticVersion "" = none := by decide

theorem compareVersions_empty_ne_older (s : String) :
    compareVersions s "" ≠ VersionOlder := by
  unfold compareVersions
  by_cases h0 : s = ""
  · simp [h0]
  · rw [if_neg h0]
    by_cases h1 : s = "latest" ∨ ("" : String) = "latest"
    · rw [if_pos h1]; simp
    · rw [if_neg h1]
      rw [parseSemanticVersion_empty]
      have hd : ("" : String).data = [] := rfl
      cases hp : parseSemanticVersion s <;>
        simp [hd, goStringLess_nil_right] <;>
        split <;> simp

/-! Claim theorems -/

/-- C1 (counterexample): contrary to the claim, latest-tag resolution with
current tag `"latest"` over `["latest", "2.0.0", "1.0.0-beta"]` does not
return `"2.0.0"`. -/
theorem c1_scenarioC_counterexample :
    findLatestTag defaultVersionFilters ["latest", "2.0.0", "1.0.0-beta"] "latest" ≠
      some "2.0.0" := by decide

/-- C1 (amended): with current tag `"latest"`, findLatestTag ignores all
filtering and scans the unfiltered list with compareVersions; because
compareVersions declares `"latest"` Incomparable with every other tag, the
scan never replaces the first tag, so for
`["latest", "2.0.0", "1.0.0-beta"]` the returned tag is `"latest"`. -/
theorem c1_scenarioC_amended (cfg : VersionFilterConfig) :
    findLatestTag cfg ["latest", "2.0.0", "1.0.0-beta"] "latest" =
      some (findHighestSemanticVersion ["latest", "2.0.0", "1.0.0-beta"]) ∧
    findHighestSemanticVersion ["latest", "2.0.0", "1.0.0-beta"] = "latest" :=
  ⟨rfl, rfl⟩

/-- C2 (code evaluated at the failing input): for `"myorg/nginx"`, whose
leading segment contains neither a dot nor a port, ParseImageReference still
classifies `"myorg"` as the registry, with an empty namespace and no
`library/` rewrite — not the claimed registry `"docker.io"` with namespace
`"myorg"`. -/
theorem c2_registry_misparse :
    ParseImageReference "myorg/nginx" =
      some ⟨"myorg", "", "nginx", "latest", "", "myorg/nginx"⟩ ∧
    occursIn ['.'] "myorg".data = false ∧
    occursIn [':'] "myorg".data = false := by decide

/-- C5 (code evaluated at the failing input): NewClient passes the limiter
`rate.Limit(requestsPerMinute/60)` with integer division, so 30
requests/minute configures a sustained rate of 0 and the default 100
requests/minute configures 60 per minute, not 100. -/
theorem c5_rate_limiter_misconfigured :
    limiterRatePerSecond 30 = 0 ∧ limiterSustainedPerMinute 30 = 0 ∧
    limiterRatePerSecond 100 = 1 ∧ limiterSustainedPerMinute 100 = 60 ∧
    ¬ limiterSustainedPerMinute 100 = 100 := by decide

/-- C6: with tags `["1.21.0", "1.21.1", "1.22.0-rc1"]`, current tag
`"1.21.0"`, ExcludePreRelease and OnlyStable set (ExcludeWindows arbitrary,
no custom patterns), the update check resolves the latest tag to `"1.21.1"`
and reports an update. -/
theorem c6_scenarioA (w : Bool) :
    (CheckImageUpdate ⟨true, w, [], true⟩ "docker.io" "library/nginx" "1.21.0"
        ["1.21.0", "1.21.1", "1.22.0-rc1"]).LatestTag = "1.21.1" ∧
    (CheckImageUpdate ⟨true, w, [], true⟩ "docker.io" "library/nginx" "1.21.0"
        ["1.21.0", "1.21.1", "1.22.0-rc1"]).HasUpdate = true := by
  cases w <;> exact ⟨by decide, by decide⟩

/-- C3: on inputs that both parse as semantic versions, compareVersions
orders by major, then minor, then patch; a release is Newer than a
pre-release at the same numbers; two pre-releases compare lexicographically;
and build metadata never affects the result, so versions agreeing on all but
Build compare Equal. -/
theorem c3_compareVersions_semantics (a b : String) (v1 v2 : SemanticVersion)
    (h1 : parseSemanticVersion a = some v1) (h2 : parseSemanticVersion b = some v2) :
    compareVersions a b = semverOrder v1 v2 ∧
    (v1.Major = v2.Major → v1.Minor = v2.Minor → v1.Patch = v2.Patch →
      v1.PreRelease = v2.PreRelease → compareVersions a b = VersionEqual) := by
  have hmain : compareVersions a b = semverOrder v1 v2 := by
    unfold compareVersions
    by_cases hab : a = b
    · subst hab
      rw [h1] at h2
      have hv : v1 = v2 := Option.some.inj h2
      subst hv
      rw [if_pos rfl]
      exact (semverOrder_self v1).symm
    · have hal : ¬(a = "latest" ∨ b = "latest") := by
        rintro (rfl | rfl)
        · rw [parseSemanticVersion_latest] at h1; exact Option.noConfusion h1
        · rw [parseSemanticVersion_latest] at h2; exact Option.noConfusion h2
      rw [if_neg hab, if_neg hal, h1, h2]
      rfl
  refine ⟨hmain, fun hM hm hp hpre => ?_⟩
  rw [hmain]
  unfold semverOrder
  rw [hM, hm, hp, hpre]
  simp [goStringLess_self]

/-- C3 witness at versions differing only in build metadata. -/
theorem c3_compareVersions_semantics_witness :
    parseSemanticVersion "1.2.3+linux" = some ⟨1, 2, 3, "", "linux"⟩ ∧
    parseSemanticVersion "1.2.3+arm64" = some ⟨1, 2, 3, "", "arm64"⟩ ∧
    compareVersions "1.2.3+linux" "1.2.3+arm64" =
      semverOrder ⟨1, 2, 3, "", "linux"⟩ ⟨1, 2, 3, "", "arm64"⟩ ∧
    compareVersions "1.2.3+linux" "1.2.3+arm64" = VersionEqual :=
  ⟨by decide, by decide,
    (c3_compareVersions_semantics "1.2.3+linux" "1.2.3+arm64"
      ⟨1, 2, 3, "", "linux"⟩ ⟨1, 2, 3, "", "arm64"⟩ (by decide) (by decide)).1,
    (c3_compareVersions_semantics "1.2.3+linux" "1.2.3+arm64"
      ⟨1, 2, 3, "", "linux"⟩ ⟨1, 2, 3, "", "arm64"⟩ (by decide) (by decide)).2
      rfl rfl rfl rfl⟩

theorem filterMap_ok_nil_iff (results : List (Except String ImageUpdateInfo)) :
    results.filterMap exceptToOption = [] ↔
      results.all (fun r => !isOkB r) = true := by
  induction results with
  | nil => simp
  | cons r rs ih =>
    cases r with
    | ok u => simp [exceptToOption, isOkB]
    | error e => simpa [exceptToOption, isOkB] using ih

/-- C4: the batch aggregation errors exactly when the batch is non-empty and
every per-image check failed; as soon as one check succeeds it returns
precisely the verdicts of the successful checks, discarding the failures. -/
theorem c4_CheckMultipleImages (results : List (Except String ImageUpdateInfo)) :
    ((∃ e, CheckMultipleImages results = .error e) ↔
      results ≠ [] ∧ results.all (fun r => !isOkB r) = true) ∧
    (results.any isOkB = true →
      CheckMultipleImages results = .ok (results.filterMap exceptToOption)) := by
  constructor
  · unfold CheckMultipleImages
    by_cases hne : results.isEmpty
    · rw [if_pos hne]
      have h0 : results = [] := List.isEmpty_iff.mp hne
      subst h0
      simp
    · rw [if_neg hne]
      have hres : results ≠ [] := by
        intro h0; exact hne (by simp [h0])
      by_cases hc : 0 < (results.filter fun r => !isOkB r).length ∧
          (results.filterMap exceptToOption).length = 0
      · rw [if_pos hc]
        constructor
        · intro _
          refine ⟨hres, ?_⟩
          exact (filterMap_ok_nil_iff results).mp (List.length_eq_zero.mp hc.2)
        · intro _
          exact ⟨_, rfl⟩
      · rw [if_neg hc]
        constructor
        · rintro ⟨e, he⟩
          exact absurd he (by simp)
        · rintro ⟨-, hall⟩
          refine absurd ?_ hc
          constructor
          · have hfe : (results.filter fun r => !isOkB r) = results :=
              List.filter_eq_self.mpr (List.all_eq_true.mp hall)
            rw [hfe]
            exact List.length_pos.mpr hres
          · exact List.length_eq_zero.mpr ((filterMap_ok_nil_iff results).mpr hall)
  · intro hany
    unfold CheckMultipleImages
    have hne : ¬ results.isEmpty := by
      cases results with
      | nil => simp at hany
      | cons r rs => simp
    rw [if_neg hne]
    have hU : results.filterMap exceptToOption ≠ [] := by
      intro h0
      obtain ⟨r, hr, hok⟩ := List.any_eq_true.mp hany
      have hnot := List.all_eq_true.mp ((filterMap_ok_nil_iff results).mp h0) r hr
      simp [hok] at hnot
    rw [if_neg fun hc => hU (List.length_eq_zero.mp hc.2)]

/-- C4 witness: ten outcomes with one failure yield the nine successful
verdicts and no batch error. -/
theorem c4_CheckMultipleImages_witness :
    ((Except.error "tags fetch failed" ::
        List.replicate 9 (Except.ok (⟨"1.0.0", "1.0.1", ["1.0.1"], true,
          "docker.io", "library/nginx"⟩ : ImageUpdateInfo))).any isOkB = true) ∧
    CheckMultipleImages
        (Except.error "tags fetch failed" ::
          List.replicate 9 (Except.ok (⟨"1.0.0", "1.0.1", ["1.0.1"], true,
            "docker.io", "library/nginx"⟩ : ImageUpdateInfo))) =
      .ok ((Except.error "tags fetch failed" ::
          List.replicate 9 (Except.ok (⟨"1.0.0", "1.0.1", ["1.0.1"], true,
            "docker.io", "library/nginx"⟩ : ImageUpdateInfo))).filterMap
        exceptToOption) ∧
    ((Except.error "tags fetch failed" ::
        List.replicate 9 (Except.ok (⟨"1.0.0", "1.0.1", ["1.0.1"], true,
          "docker.io", "library/nginx"⟩ : ImageUpdateInfo))).filterMap
      exceptToOption).length = 9 :=
  ⟨by decide,
    (c4_CheckMultipleImages _).2 (by decide),
    by decide⟩

/-- C7: with a current tag other than `"latest"`, when filtering leaves no
candidate, findLatestTag errors exactly on an empty tag list, and on a
non-empty list returns the literal `"latest"` tag when present, else the
first tag of the original list. -/
theorem c7_empty_filter_fallback (cfg : VersionFilterConfig) (tags : List String)
    (cur : String) (hcur : cur ≠ "latest")
    (hfil : filterUnwantedVersions cfg (filterSemanticVersionTags tags) = []) :
    (findLatestTag cfg tags cur = none ↔ tags = []) ∧
    ∀ t0 rest, tags = t0 :: rest →
      findLatestTag cfg tags cur =
        some (if tags.contains "latest" then "latest" else t0) := by
  have hmain : ∀ t0 rest, tags = t0 :: rest →
      findLatestTag cfg tags cur =
        some (if tags.contains "latest" then "latest" else t0) := by
    intro t0 rest ht
    subst ht
    simp only [findLatestTag, if_neg hcur, hfil]
    exact (apply_ite some _ _ _).symm
  refine ⟨?_, hmain⟩
  cases tags with
  | nil => simp [findLatestTag]
  | cons t0 rest =>
    rw [hmain t0 rest rfl]
    simp

/-- C7 witness: a single non-semver tag with a non-latest current tag. -/
theorem c7_empty_filter_fallback_witness :
    ("stable" ≠ "latest" ∧
      filterUnwantedVersions defaultVersionFilters
        (filterSemanticVersionTags ["edge", "main"]) = []) ∧
    ((findLatestTag defaultVersionFilters ["edge", "main"] "stable" = none ↔
        (["edge", "main"] : List String) = []) ∧
      ∀ t0 rest, (["edge", "main"] : List String) = t0 :: rest →
        findLatestTag defaultVersionFilters ["edge", "main"] "stable" =
          some (if (["edge", "main"] : List String).contains "latest" then "latest"
            else t0)) :=
  ⟨⟨by decide, by decide⟩,
    c7_empty_filter_fallback defaultVersionFilters ["edge", "main"] "stable"
      (by decide) (by decide)⟩

/-- C8: an empty tag list produces a verdict (not an error) with no update
and empty available tags; and every verdict reports an update exactly when
compareVersions places the current tag strictly VersionOlder than the
verdict's latest tag. -/
theorem c8_CheckImageUpdate_verdicts (cfg : VersionFilterConfig)
    (registry repository currentTag : String) (tags : List String) :
    (tags = [] → CheckImageUpdate cfg registry repository currentTag tags =
      { CurrentTag := currentTag, LatestTag := "", AvailableTags := [],
        HasUpdate := false, Registry := registry, Repository := repository }) ∧
    ((CheckImageUpdate cfg registry repository currentTag tags).HasUpdate = true ↔
      compareVersions currentTag
        (CheckImageUpdate cfg registry repository currentTag tags).LatestTag =
        VersionOlder) := by
  constructor
  · rintro rfl
    rfl
  · unfold CheckImageUpdate
    split
    · simp [compareVersions_empty_ne_older currentTag]
    · split
      · simp [compareVersions_empty_ne_older currentTag]
      · simp

/-- C8 witness at the empty tag list. -/
theorem c8_CheckImageUpdate_verdicts_witness :
    CheckImageUpdate defaultVersionFilters "docker.io" "library/redis" "7.2.0" [] =
      { CurrentTag := "7.2.0", LatestTag := "", AvailableTags := [],
        HasUpdate := false, Registry := "docker.io",
        Repository := "library/redis" } ∧
    ((CheckImageUpdate defaultVersionFilters "docker.io" "library/redis" "7.2.0"
        []).HasUpdate = true ↔
      compareVersions "7.2.0"
        (CheckImageUpdate defaultVersionFilters "docker.io" "library/redis" "7.2.0"
          []).LatestTag = VersionOlder) :=
  ⟨(c8_CheckImageUpdate_verdicts defaultVersionFilters "docker.io" "library/redis"
      "7.2.0" []).1 rfl,
    (c8_CheckImageUpdate_verdicts defaultVersionFilters "docker.io" "library/redis"
      "7.2.0" []).2⟩

theorem taskStep_inv (s : TaskExecState) (e : TaskEvent) :
    taskInv s → taskInv (taskStep s e) := by
  intro h
  unfold taskInv at h ⊢
  cases e <;> by_cases hr : s.isRunning <;>
    simp [taskStep, hr] at h ⊢ <;> omega

theorem foldl_taskStep_inv (es : List TaskEvent) :
    ∀ s : TaskExecState, taskInv s → taskInv (es.foldl taskStep s) := by
  induction es with
  | nil => intro s h; exact h
  | cons e rest ih =>
    intro s h
    exact ih (taskStep s e) (taskStep_inv s e h)

/-- C9: along every interleaving of scheduled firings, on-demand runs and
completions, at most one execution of a task is ever active, and a scheduled
firing that finds the IsRunning flag set leaves the task state unchanged
(the firing is skipped, not queued). -/
theorem c9_no_concurrent_firings :
    ∀ es : List TaskEvent, (runTrace es).active ≤ 1 ∧
      ∀ s : TaskExecState, s.isRunning = true →
        taskStep s TaskEvent.scheduledFire = s := by
  intro es
  constructor
  · have h : taskInv (runTrace es) :=
      foldl_taskStep_inv es initTaskState rfl
    unfold taskInv at h
    rw [h]
    split <;> simp
  · intro s hs
    simp [taskStep, hs]

/-- C9 witness: a stacked firing attempt during a run changes nothing, and a
concrete trace with overlapping firing attempts keeps at most one active. -/
theorem c9_no_concurrent_firings_witness :
    (runTrace [TaskEvent.scheduledFire, TaskEvent.runTask,
        TaskEvent.scheduledFire]).active ≤ 1 ∧
    taskStep ⟨true, 1⟩ TaskEvent.scheduledFire = ⟨true, 1⟩ :=
  ⟨(c9_no_concurrent_firings [TaskEvent.scheduledFire, TaskEvent.runTask,
      TaskEvent.scheduledFire]).1,
    (c9_no_concurrent_firings [TaskEvent.scheduledFire, TaskEvent.runTask,
      TaskEvent.scheduledFire]).2 ⟨true, 1⟩ (by decide)⟩

theorem ParseImageReference_fullName (x : String) (r : ImageReference)
    (h : ParseImageReference x = some r) : r.FullName = x := by
  unfold ParseImageReference at h
  split at h
  · exact Option.noConfusion h
  · split at h
    · exact Option.noConfusion h
    · obtain rfl := Option.some.inj h
      rfl

/-- C10: a successful parse stores the raw input, unchanged, in FullName —
no defaulted registry, namespace or tag is folded in — and re-parsing
FullName reproduces the identical ImageReference. -/
theorem c10_fullName_roundtrip (x : String) (r : ImageReference)
    (h : ParseImageReference x = some r) :
    r.FullName = x ∧ ParseImageReference r.FullName = some r := by
  have hf : r.FullName = x := ParseImageReference_fullName x r h
  exact ⟨hf, by rw [hf]; exact h⟩

/-- C10 witness: `"nginx"` parses to a normalized reference whose FullName is
still the bare `"nginx"`, and parsing it again is stable. -/
theorem c10_fullName_roundtrip_witness :
    (⟨"docker.io", "", "library/nginx", "latest", "", "nginx"⟩ :
        ImageReference).FullName = "nginx" ∧
    ParseImageReference
        ((⟨"docker.io", "", "library/nginx", "latest", "", "nginx"⟩ :
          ImageReference).FullName) =
      some ⟨"docker.io", "", "library/nginx", "latest", "", "nginx"⟩ :=
  c10_fullName_roundtrip "nginx"
    ⟨"docker.io", "", "library/nginx", "latest", "", "nginx"⟩ (by decide)
